import Mathlib

/-!
Verification of the deep-searcher retrieval data layer and the LangSmith
tracer glue.

The tracer functions (`configure_langsmith`, `wrap_client`, `lazy_traceable`)
are shallow embeddings of `deepsearcher/llm_tracer/config.py` and
`deepsearcher/llm_tracer/traceable.py`.  The process environment is modelled
as a function from variable names to optional values; importability of the
optional `langsmith` package is modelled by a boolean parameter, and the
imported langsmith functions themselves are opaque function parameters.

The Siliconflow embedding adapter and the Milvus vector-store adapter are not
among the visible sources (only their unit tests are), so their operations are
modelled from the spec, as documented on each definition.  Embedding scalars
are modelled as rationals (no arithmetic is ever performed on them; they are
only moved around and, for scores, compared).
-/

namespace DeepSearcher

/-- A process environment: maps a variable name to its value when set. -/
def Env : Type := String → Option String

/-- Error kind for an unresolvable configuration (missing credential,
unknown model dimension); surfaced at construction / property access. -/
structure ConfigurationError where
  msg : String
deriving Repr, DecidableEq

/-- Error kind for an embedding backend transport/response failure
(including a missing per-item index in a batch response). -/
structure ProviderError where
  msg : String
deriving Repr, DecidableEq

/-- Error kind for a dimension/field mismatch on insert. -/
structure SchemaMismatchError where
  collection : String
deriving Repr, DecidableEq

/-- Error kind for an operation against a nonexistent collection. -/
structure NotFoundError where
  collection : String
deriving Repr, DecidableEq

/-! ### llm_tracer/config.py -/

/-- The LangSmith endpoint constant of `deepsearcher/llm_tracer/config.py`. -/
def LANGSMITH_ENDPOINT : String := "https://api.smith.langchain.com"

/-- The default LangSmith project constant of
`deepsearcher/llm_tracer/config.py`. -/
def LANGSMITH_PROJECT : String := "default"

/-- Python truthiness of `os.getenv`'s result: `None` and `""` are falsy. -/
def strTruthy : Option String → Bool
  | none => false
  | some s => !(s == "")

/-- `configure_langsmith` of `deepsearcher/llm_tracer/config.py`, as a pure
function of the environment: reads `LANGSMITH_API_KEY` and
`LANGSMITH_PROJECT`, returns `False` leaving the environment untouched when
the key is falsy, and otherwise sets `LANGSMITH_TRACING`,
`LANGSMITH_ENDPOINT` and `LANGSMITH_PROJECT` and returns `True`.  (The
`except ImportError` branch of the source is unreachable: no import occurs
inside the `try`.) -/
def configure_langsmith (env : Env) : Bool × Env :=
  let api_key := env "LANGSMITH_API_KEY"
  let project := (env "LANGSMITH_PROJECT").getD LANGSMITH_PROJECT
  if strTruthy api_key then
    (true, fun k =>
      if k == "LANGSMITH_TRACING" then some "true"
      else if k == "LANGSMITH_ENDPOINT" then some LANGSMITH_ENDPOINT
      else if k == "LANGSMITH_PROJECT" then some project
      else env k)
  else (false, env)

/-- Python's `str.lower`, embedded characterwise (the client-type strings
involved are ASCII, where `Char.toLower` agrees with Python). -/
def pyLower (s : String) : String := ⟨s.data.map Char.toLower⟩

/-- `wrap_client` of `deepsearcher/llm_tracer/config.py`.  `avail` models
whether `langsmith.wrappers` is importable; `wrap_openai` and
`wrap_anthropic` model the imported wrapper functions.  On `ImportError`
(and for unsupported client types) the original client is returned; the
function is total, so it never raises. -/
def wrap_client {γ : Type} (avail : Bool) (wrap_openai wrap_anthropic : γ → γ)
    (client : γ) (client_type : String) : γ :=
  if avail then
    if pyLower client_type == "openai" then wrap_openai client
    else if pyLower client_type == "anthropic" then wrap_anthropic client
    else client
  else client

/-! ### llm_tracer/traceable.py -/

/-- `lazy_traceable` of `deepsearcher/llm_tracer/traceable.py`, specialised
to functions `α → Except ε β` so that raising is observable.  `avail` models
whether `langsmith.run_helpers.traceable` is importable and
`langsmith_traceable` models that decorator applied with the given
`run_type`.  When the import fails the decorator returns `wrapper`, which
forwards its arguments to `func` unchanged. -/
def lazy_traceable {α β ε : Type} (avail : Bool)
    (langsmith_traceable : String → (α → Except ε β) → (α → Except ε β))
    (run_type : String) (func : α → Except ε β) : α → Except ε β :=
  let wrapper := fun args => func args
  if avail then langsmith_traceable run_type func else wrapper

/-! ### Siliconflow embedding adapter (spec-modelled) -/

/-- Modelled from the spec: the static model-to-dimension table of the
Siliconflow embedding adapter, whose implementation file is not among the
visible sources (only its tests are).  Entries are the documented/tested
model identifiers (spec section 8 and the dimension tests). -/
def SILICONFLOW_MODEL_DIM : List (String × Nat) :=
  [("BAAI/bge-m3", 1024),
   ("netease-youdao/bce-embedding-base_v1", 768),
   ("BAAI/bge-large-zh-v1.5", 1024)]

/-- Configuration of a constructed Siliconflow embedding adapter (spec
section 3): model identifier, resolved api key and batch size, set once at
construction and immutable afterwards. -/
structure SiliconflowEmbedding where
  model : String
  api_key : String
  batch_size : Nat
deriving Repr, DecidableEq

/-- Modelled from the spec: the `SiliconflowEmbedding` constructor is not
among the visible sources.  Per spec sections 4.1 and 7 (and the test
`test_init_without_api_key`), the credential is resolved from the explicit
`api_key` argument or the `SILICONFLOW_API_KEY` environment variable, and a
missing credential fails with `ConfigurationError` eagerly at construction.
The constructor takes no transport argument, so no network call can occur. -/
def SiliconflowEmbedding.init (env : Env) (model : String)
    (api_key : Option String) (batch_size : Nat) :
    Except ConfigurationError SiliconflowEmbedding :=
  match api_key with
  | some k => .ok ⟨model, k, batch_size⟩
  | none =>
    match env "SILICONFLOW_API_KEY" with
    | some k => .ok ⟨model, k, batch_size⟩
    | none => .error ⟨"missing SILICONFLOW_API_KEY"⟩

/-- Modelled from the spec: the read-only `dimension` property, resolved
from the static table; `ConfigurationError` for unrecognized model
identifiers (spec section 4.1). -/
def SiliconflowEmbedding.dimension (m : SiliconflowEmbedding) :
    Except ConfigurationError Nat :=
  match SILICONFLOW_MODEL_DIM.find? (fun p => p.fst == m.model) with
  | some p => .ok p.snd
  | none => .error ⟨"unknown model dimension"⟩

/-- Consecutive batches of at most `bs` items (spec section 4.1: the input
is "partitioned into consecutive batches of at most batch_size"). -/
def chunkList {α : Type} (bs : Nat) : List α → List (List α)
  | [] => []
  | a :: l => (a :: l.take (bs - 1)) :: chunkList bs (l.drop (bs - 1))
termination_by l => l.length
decreasing_by simp [List.length_drop]; omega

/-- Modelled from the spec: the sequence of outbound requests
`embed_documents` issues — one request per consecutive batch of at most
`batch_size` texts. -/
def embed_requests (m : SiliconflowEmbedding) (texts : List String) :
    List (List String) :=
  chunkList m.batch_size texts

/-- Modelled from the spec: reassembly of one batch response by the
backend's per-item index field (spec sections 4.1 and 6).  The response is a
data array of (index, embedding) entries in arbitrary order; for each
requested position the entry carrying that index is looked up, and a missing
index is a `ProviderError`. -/
def reassembleBatch (resp : List (Nat × List Rat)) (n : Nat) :
    Except ProviderError (List (List Rat)) :=
  (List.range n).mapM (fun i =>
    match resp.find? (fun p => p.fst == i) with
    | some p => Except.ok p.snd
    | none => Except.error ⟨"missing index in embedding response"⟩)

/-- Modelled from the spec: `embed_documents` issues one request per batch
(`respond` models the backend, mapping a batch of texts to its response data
array), reassembles each batch by its index field, and concatenates the
batches in order.  A failed batch aborts the whole call, leaving no partial
result (spec section 4.1). -/
def embed_documents (m : SiliconflowEmbedding)
    (respond : List String → List (Nat × List Rat)) (texts : List String) :
    Except ProviderError (List (List Rat)) := do
  let results ← (embed_requests m texts).mapM
    (fun b => reassembleBatch (respond b) b.length)
  return results.flatten

/-! ### Milvus vector-store adapter (spec-modelled) -/

/-- Normalized retrieved/stored chunk (spec section 3).  Metadata is an open
string-keyed map of scalar values; `score` is meaningful on search results. -/
structure RetrievalResult where
  embedding : List Rat
  text : String
  reference : String
  metadata : List (String × String)
  score : Rat
deriving Repr, DecidableEq

/-- A collection: dimension fixed at creation, description, hybrid flag and
the stored rows (spec section 3). -/
structure Collection where
  dimension : Nat
  description : String
  hybrid : Bool
  rows : List RetrievalResult
deriving Repr, DecidableEq

/-- Modelled from the spec: the vector store's persisted state, a map of
collection name to collection.  The Milvus adapter implementation is not
among the visible sources (only its tests are), so the store operations
below are modelled from spec sections 3, 4.2 and 7. -/
structure MilvusState where
  collections : List (String × Collection)
deriving Repr, DecidableEq

/-- Look a collection up by name. -/
def lookupCollection (st : MilvusState) (name : String) : Option Collection :=
  (st.collections.find? (fun p => p.fst == name)).map Prod.snd

/-- Replace a collection's entry, or append it when absent. -/
def setCollection (st : MilvusState) (name : String) (c : Collection) :
    MilvusState :=
  if (st.collections.find? (fun p => p.fst == name)).isSome then
    ⟨st.collections.map (fun p => if p.fst == name then (name, c) else p)⟩
  else ⟨st.collections ++ [(name, c)]⟩

/-- Modelled from the spec: `init_collection` drives `absent → indexed`;
idempotent when the collection already exists, unless `force_new` is set,
which drops and recreates unconditionally (spec section 4.2). -/
def init_collection (st : MilvusState) (name : String) (dim : Nat)
    (description : String) (hybrid force_new : Bool) : MilvusState :=
  match lookupCollection st name with
  | some _ =>
    if force_new then setCollection st name ⟨dim, description, hybrid, []⟩
    else st
  | none => setCollection st name ⟨dim, description, hybrid, []⟩

/-- Modelled from the spec: `insert_data` validates every record's embedding
length against the collection's fixed dimension before writing; on any
mismatch it fails with `SchemaMismatchError` and returns the state unchanged
(all-or-nothing, no partial write, no truncation or padding).  On an absent
collection the spec's lazy creation applies; the spec leaves the lazily
created dimension implicit, so it is taken from the first record. -/
def insert_data (st : MilvusState) (name : String)
    (chunks : List RetrievalResult) :
    MilvusState × Option SchemaMismatchError :=
  let c := match lookupCollection st name with
    | some c => c
    | none => ⟨(chunks.headD ⟨[], "", "", [], 0⟩).embedding.length, "", false, []⟩
  if chunks.all (fun r => r.embedding.length == c.dimension) then
    (setCollection st name { c with rows := c.rows ++ chunks }, none)
  else (st, some ⟨name⟩)

/-- Modelled from the spec: `search_data` scores every stored row with the
backend's metric (`score_fn`; a distance, lower is better, matching the
ascending distances reported by the mocked backend in the tests), orders
best-first, and returns the first `top_k` rows with the stored fields passed
through unmodified and the reported score attached.  `NotFoundError` on an
absent collection (spec sections 4.2 and 7). -/
def search_data (score_fn : List Rat → List Rat → Rat) (st : MilvusState)
    (name : String) (vector : List Rat) (top_k : Nat) :
    Except NotFoundError (List RetrievalResult) :=
  match lookupCollection st name with
  | none => Except.error ⟨name⟩
  | some c =>
    let scored := c.rows.map
      (fun r => { r with score := score_fn vector r.embedding })
    Except.ok ((scored.mergeSort
      (fun a b => decide (a.score ≤ b.score))).take top_k)

/-- Modelled from the spec: `clear_db` drops the collection if it exists and
is an idempotent no-op when absent; it is a total function, so it never
raises (spec section 4.2). -/
def clear_db (st : MilvusState) (name : String) : MilvusState :=
  ⟨st.collections.filter (fun p => !(p.fst == name))⟩

/-- Modelled from the spec: `list_collections` returns name + description
summaries of the existing collections (spec section 4.2). -/
def list_collections (st : MilvusState) : List (String × String) :=
  st.collections.map (fun p => (p.fst, p.snd.description))

/-- Stored row count of a collection (0 when absent). -/
def row_count (st : MilvusState) (name : String) : Nat :=
  match lookupCollection st name with
  | some c => c.rows.length
  | none => 0

/-! ### Concrete instances used by witnesses -/

/-- A constant embedding function used as a concrete backend instance. -/
def constE : String → List Rat := fun _ => List.replicate 1024 1

/-- A concrete backend that answers each batch with correctly indexed
entries in array order. -/
def constRespond : List String → List (Nat × List Rat) :=
  fun b => (List.range b.length).map (fun i => (i, constE (b.getD i "")))

/-! ### Helper lemmas -/

/-- `mapM` over `Except` succeeds pointwise. -/
theorem mapM_ok_of_forall {α β ε : Type} (f : α → Except ε β) (g : α → β)
    (l : List α) (h : ∀ a ∈ l, f a = Except.ok (g a)) :
    l.mapM f = Except.ok (l.map g) := by
  induction l with
  | nil => rfl
  | cons a t ih =>
    rw [List.mapM_cons, h a (by simp), ih (fun x hx => h x (by simp [hx]))]
    rfl

/-- Mapping a function over positional `getD` reads of a list recovers
mapping over the list itself. -/
theorem range_map_getD {α β : Type} (f : α → β) (d : α) (l : List α) :
    (List.range l.length).map (fun i => f (l.getD i d)) = l.map f := by
  induction l with
  | nil => rfl
  | cons a t ih =>
    rw [List.length_cons, List.range_succ_eq_map, List.map_cons,
      List.map_map, List.map_cons, List.getD_cons_zero]
    refine congrArg (List.cons (f a)) ?_
    rw [← ih]
    refine List.map_congr_left ?_
    intro i _
    simp [Function.comp, List.getD_cons_succ]

/-- `getD` commutes with `map` at in-range positions. -/
theorem getD_map {α β : Type} (f : α → β) (d : β) (e : α) (l : List α)
    (i : Nat) (hi : i < l.length) : (l.map f).getD i d = f (l.getD i e) := by
  induction l generalizing i with
  | nil => simp at hi
  | cons a t ih =>
    cases i with
    | zero => rfl
    | succ n =>
      rw [List.map_cons, List.getD_cons_succ, List.getD_cons_succ]
      exact ih n (by simpa using Nat.lt_of_succ_lt_succ hi)

/-- Reassembly by index succeeds and restores input order for every
response that is some permutation of the correctly indexed per-item
embeddings of the batch. -/
theorem reassembleBatch_eq_ok {E : String → List Rat} {b : List String}
    {resp : List (Nat × List Rat)}
    (h : resp.Perm ((List.range b.length).map
      (fun i => (i, E (b.getD i ""))))) :
    reassembleBatch resp b.length = Except.ok (b.map E) := by
  unfold reassembleBatch
  rw [← range_map_getD (fun s => E s) "" b]
  apply mapM_ok_of_forall
  intro i hi
  rw [List.mem_range] at hi
  have hfind : resp.find? (fun p => p.fst == i) = some (i, E (b.getD i "")) := by
    cases hf : resp.find? (fun p => p.fst == i) with
    | none =>
      exfalso
      have hmem : ((i, E (b.getD i "")) : Nat × List Rat) ∈ resp := by
        apply h.mem_iff.mpr
        exact List.mem_map.mpr ⟨i, List.mem_range.mpr hi, rfl⟩
      have := List.find?_eq_none.mp hf _ hmem
      simp at this
    | some q =>
      have hq := List.find?_some hf
      simp only [] at hq
      have hqmem : q ∈ resp := List.mem_of_find?_eq_some hf
      have hqm : q ∈ (List.range b.length).map
          (fun j => ((j, E (b.getD j "")) : Nat × List Rat)) :=
        h.mem_iff.mp hqmem
      obtain ⟨j, _, hjq⟩ := List.mem_map.mp hqm
      have hfst : q.fst = i := by simpa using hq
      have hji : j = i := by rw [← hjq] at hfst; simpa using hfst
      rw [← hjq, hji]
  rw [hfind]

/-- Concatenating the consecutive batches recovers the original list. -/
theorem chunkList_flatten {α : Type} (bs : Nat) (l : List α) :
    (chunkList bs l).flatten = l := by
  have H : ∀ n (l : List α), l.length ≤ n → (chunkList bs l).flatten = l := by
    intro n
    induction n with
    | zero =>
      intro l hl
      have : l = [] := List.eq_nil_of_length_eq_zero (Nat.le_zero.mp hl)
      subst this
      simp [chunkList]
    | succ n ih =>
      intro l hl
      cases l with
      | nil => simp [chunkList]
      | cons a t =>
        simp only [chunkList, List.flatten_cons]
        rw [ih (t.drop (bs - 1))
          (by rw [List.length_drop]; simp at hl; omega)]
        rw [List.cons_append, List.take_append_drop]
  exact H l.length l (le_refl _)

/-- Every batch has at most `bs` items. -/
theorem chunkList_batch_le {α : Type} (bs : Nat) (hbs : 0 < bs) (l : List α) :
    ∀ b ∈ chunkList bs l, b.length ≤ bs := by
  have H : ∀ n (l : List α), l.length ≤ n →
      ∀ b ∈ chunkList bs l, b.length ≤ bs := by
    intro n
    induction n with
    | zero =>
      intro l hl
      have : l = [] := List.eq_nil_of_length_eq_zero (Nat.le_zero.mp hl)
      subst this
      intro b hb
      simp [chunkList] at hb
    | succ n ih =>
      intro l hl
      cases l with
      | nil => intro b hb; simp [chunkList] at hb
      | cons a t =>
        intro b hb
        simp only [chunkList, List.mem_cons] at hb
        rcases hb with hb | hb
        · subst hb
          rw [List.length_cons, List.length_take]
          omega
        · exact ih (t.drop (bs - 1))
            (by rw [List.length_drop]; simp at hl; omega) b hb
  exact H l.length l (le_refl _)

/-- The number of batches is the ceiling of `length / bs`. -/
theorem chunkList_length {α : Type} (bs : Nat) (hbs : 0 < bs) (l : List α) :
    (chunkList bs l).length = (l.length + bs - 1) / bs := by
  have H : ∀ n (l : List α), l.length ≤ n →
      (chunkList bs l).length = (l.length + bs - 1) / bs := by
    intro n
    induction n with
    | zero =>
      intro l hl
      have : l = [] := List.eq_nil_of_length_eq_zero (Nat.le_zero.mp hl)
      subst this
      simp [chunkList, Nat.div_eq_of_lt (show bs - 1 < bs by omega)]
    | succ n ih =>
      intro l hl
      cases l with
      | nil => simp [chunkList, Nat.div_eq_of_lt (show bs - 1 < bs by omega)]
      | cons a t =>
        simp only [chunkList, List.length_cons]
        rw [ih (t.drop (bs - 1))
          (by rw [List.length_drop]; simp at hl; omega)]
        rw [List.length_drop]
        have h2 : t.length + 1 + bs - 1 = t.length + bs := by omega
        rw [h2, Nat.add_div_right _ hbs]
        rcases le_or_lt (bs - 1) t.length with hc | hc
        · have h1 : t.length - (bs - 1) + bs - 1 = t.length := by omega
          rw [h1]
        · have h1 : t.length - (bs - 1) + bs - 1 = bs - 1 := by omega
          rw [h1, Nat.div_eq_of_lt (by omega), Nat.div_eq_of_lt (by omega)]
  exact H l.length l (le_refl _)

/-- Python truthiness of an optional string, as a proposition. -/
theorem strTruthy_iff (o : Option String) :
    strTruthy o = true ↔ ∃ s, o = some s ∧ s ≠ "" := by
  cases o with
  | none => simp [strTruthy]
  | some s => simp [strTruthy]

/-! ### Claim theorems -/

/-- C8: when the langsmith package is not importable, a function decorated
with `lazy_traceable` is behaviorally identical to the undecorated function:
for every argument it returns exactly what the original returns (and raises,
i.e. yields `Except.error`, exactly when it raises). -/
theorem lazy_traceable_without_langsmith {α β ε : Type}
    (langsmith_traceable : String → (α → Except ε β) → (α → Except ε β))
    (run_type : String) (func : α → Except ε β) (args : α) :
    lazy_traceable false langsmith_traceable run_type func args = func args :=
  rfl

/-- C9: `configure_langsmith` returns `True` iff `LANGSMITH_API_KEY` is set
and non-empty; when it returns `False` the `LANGSMITH_TRACING`,
`LANGSMITH_ENDPOINT` and `LANGSMITH_PROJECT` variables are unchanged, and
when it returns `True` they are set to `"true"`, the LangSmith endpoint
URL, and the current `LANGSMITH_PROJECT` value (defaulting to
`"default"`) respectively. -/
theorem configure_langsmith_spec (env : Env) :
    ((configure_langsmith env).fst = true ↔
      ∃ s, env "LANGSMITH_API_KEY" = some s ∧ s ≠ "") ∧
    ((configure_langsmith env).fst = false →
      ((configure_langsmith env).snd "LANGSMITH_TRACING" =
          env "LANGSMITH_TRACING" ∧
        (configure_langsmith env).snd "LANGSMITH_ENDPOINT" =
          env "LANGSMITH_ENDPOINT" ∧
        (configure_langsmith env).snd "LANGSMITH_PROJECT" =
          env "LANGSMITH_PROJECT")) ∧
    ((configure_langsmith env).fst = true →
      ((configure_langsmith env).snd "LANGSMITH_TRACING" = some "true" ∧
        (configure_langsmith env).snd "LANGSMITH_ENDPOINT" =
          some "https://api.smith.langchain.com" ∧
        (configure_langsmith env).snd "LANGSMITH_PROJECT" =
          some ((env "LANGSMITH_PROJECT").getD "default"))) := by
  cases h : strTruthy (env "LANGSMITH_API_KEY") with
  | false =>
    refine ⟨?_, ?_, ?_⟩
    · rw [show (configure_langsmith env).fst = false by
        simp [configure_langsmith, h]]
      simp only [Bool.false_eq_true, false_iff]
      rw [← strTruthy_iff] at *
      simp [h]
    · intro _
      refine ⟨?_, ?_, ?_⟩ <;> simp [configure_langsmith, h]
    · intro hc
      rw [show (configure_langsmith env).fst = false by
        simp [configure_langsmith, h]] at hc
      simp at hc
  | true =>
    refine ⟨?_, ?_, ?_⟩
    · rw [show (configure_langsmith env).fst = true by
        simp [configure_langsmith, h]]
      simp only [true_iff]
      exact (strTruthy_iff _).mp h
    · intro hc
      rw [show (configure_langsmith env).fst = true by
        simp [configure_langsmith, h]] at hc
      simp at hc
    · intro _
      refine ⟨?_, ?_, ?_⟩ <;>
        simp [configure_langsmith, h, LANGSMITH_ENDPOINT, LANGSMITH_PROJECT]

/-- C9 witness: a concrete environment with a non-empty key and a project
set, evaluated through the claim theorem. -/
theorem configure_langsmith_spec_witness :
    (configure_langsmith (fun k =>
      if k == "LANGSMITH_API_KEY" then some "key"
      else if k == "LANGSMITH_PROJECT" then some "proj"
      else none)).fst = true ∧
    (configure_langsmith (fun k =>
      if k == "LANGSMITH_API_KEY" then some "key"
      else if k == "LANGSMITH_PROJECT" then some "proj"
      else none)).snd "LANGSMITH_PROJECT" = some "proj" := by
  have h := configure_langsmith_spec (fun k =>
    if k == "LANGSMITH_API_KEY" then some "key"
    else if k == "LANGSMITH_PROJECT" then some "proj"
    else none)
  have h1 := h.1.mpr ⟨"key", by simp, by simp⟩
  refine ⟨h1, ?_⟩
  have h2 := (h.2.2 h1).2.2
  simpa using h2

/-- C10: `wrap_client` never raises: for every client and every client type
whose lowercase form is neither "openai" nor "anthropic", and also whenever
the langsmith wrappers cannot be imported, it returns the original client
unchanged. -/
theorem wrap_client_returns_original {γ : Type}
    (wrap_openai wrap_anthropic : γ → γ) (client : γ) (client_type : String) :
    (∀ avail : Bool, pyLower client_type ≠ "openai" →
      pyLower client_type ≠ "anthropic" →
      wrap_client avail wrap_openai wrap_anthropic client client_type =
        client) ∧
    wrap_client false wrap_openai wrap_anthropic client client_type =
      client := by
  constructor
  · intro avail h1 h2
    cases avail with
    | false => rfl
    | true => simp [wrap_client, h1, h2]
  · rfl

/-- C10 witness: an unsupported client type at a concrete client, through
the claim theorem. -/
theorem wrap_client_returns_original_witness :
    wrap_client true (fun n => n + 1) (fun n => n + 2) (0 : Nat) "gemini" =
      0 ∧
    wrap_client false (fun n => n + 1) (fun n => n + 2) (0 : Nat) "gemini" =
      0 := by
  have h := wrap_client_returns_original (fun n => n + 1) (fun n => n + 2)
    (0 : Nat) "gemini"
  exact ⟨h.1 true (by decide) (by decide), h.2⟩

/-- C3: constructing the Siliconflow embedding model with no resolvable
credential (no api_key argument, no `SILICONFLOW_API_KEY` environment
variable) fails with `ConfigurationError` at construction time; the
constructor takes no transport argument, so no network call is possible. -/
theorem siliconflow_init_without_api_key (env : Env)
    (h : env "SILICONFLOW_API_KEY" = none) (model : String) (bs : Nat) :
    SiliconflowEmbedding.init env model none bs =
      Except.error ⟨"missing SILICONFLOW_API_KEY"⟩ := by
  simp [SiliconflowEmbedding.init, h]

/-- C3 witness: the empty environment, through the claim theorem. -/
theorem siliconflow_init_without_api_key_witness :
    SiliconflowEmbedding.init (fun _ => none) "BAAI/bge-m3" none 32 =
      Except.error ⟨"missing SILICONFLOW_API_KEY"⟩ :=
  siliconflow_init_without_api_key (fun _ => none) rfl "BAAI/bge-m3" 32

/-- C4: `dimension` is resolved from the static model-to-dimension table;
every table entry is positive, and the three documented models resolve to
1024, 768 and 1024 respectively.  `dimension` is a pure function of the
constructed configuration, so repeated reads agree by definition. -/
theorem siliconflow_dimension_table (key : String) (bs : Nat) :
    SiliconflowEmbedding.dimension ⟨"BAAI/bge-m3", key, bs⟩ =
      Except.ok 1024 ∧
    SiliconflowEmbedding.dimension
        ⟨"netease-youdao/bce-embedding-base_v1", key, bs⟩ =
      Except.ok 768 ∧
    SiliconflowEmbedding.dimension ⟨"BAAI/bge-large-zh-v1.5", key, bs⟩ =
      Except.ok 1024 ∧
    ∀ p ∈ SILICONFLOW_MODEL_DIM, 0 < p.snd := by
  refine ⟨rfl, rfl, rfl, by decide⟩

/-- C1: for every non-empty list of texts with true embeddings `E` of the
declared dimension, and every backend whose per-batch response is any
permutation of the correctly indexed per-item entries, `embed_documents`
returns exactly one vector per input text, in input order (the i-th output
is `E` of the i-th input), each of the declared dimension — regardless of
how the input length compares to `batch_size` and of response order, since
reassembly is by the per-item index field. -/
theorem embed_documents_correct (model key : String) (bs dim : Nat)
    (E : String → List Rat) (respond : List String → List (Nat × List Rat))
    (texts : List String) (hne : texts ≠ [])
    (hdim : SiliconflowEmbedding.dimension ⟨model, key, bs⟩ = Except.ok dim)
    (hE : ∀ s, (E s).length = dim)
    (hresp : ∀ b, (respond b).Perm ((List.range b.length).map
      (fun i => (i, E (b.getD i ""))))) :
    embed_documents ⟨model, key, bs⟩ respond texts =
      Except.ok (texts.map E) ∧
    (texts.map E).length = texts.length ∧
    (∀ v ∈ texts.map E, v.length = dim) ∧
    ∀ i, i < texts.length →
      (texts.map E).getD i [] = E (texts.getD i "") := by
  refine ⟨?_, List.length_map _ _, ?_, ?_⟩
  · unfold embed_documents embed_requests
    rw [mapM_ok_of_forall _ (fun b => b.map E) _
      (fun b _ => reassembleBatch_eq_ok (hresp b))]
    show Except.ok ((chunkList bs texts).map (fun b => b.map E)).flatten = _
    rw [← List.map_flatten, chunkList_flatten]
  · intro v hv
    obtain ⟨s, _, rfl⟩ := List.mem_map.mp hv
    exact hE s
  · intro i hi
    exact getD_map E [] "" texts i hi

/-- C1 witness: one text against a correctly indexed concrete backend,
through the claim theorem. -/
theorem embed_documents_correct_witness :
    embed_documents ⟨"BAAI/bge-m3", "k", 32⟩ constRespond ["hello"] =
      Except.ok (["hello"].map constE) ∧
    (["hello"].map constE).length = 1 := by
  have hE : ∀ s, (constE s).length = 1024 := fun _ => by
    show (List.replicate 1024 (1 : Rat)).length = 1024
    rw [List.length_replicate]
  have h := embed_documents_correct "BAAI/bge-m3" "k" 32 1024 constE
    constRespond ["hello"] (List.cons_ne_nil _ _) rfl
    hE (fun b => List.Perm.refl _)
  exact ⟨h.1, h.2.1⟩

/-- C2: `embed_documents` partitions its input into consecutive batches of
at most `batch_size` (flattening the request sequence in order recovers the
input) and issues exactly one outbound request per batch, so the number of
requests is the ceiling of `n / batch_size`; in particular 50 texts with
`batch_size = 32` issue exactly 2 requests. -/
theorem embed_documents_batching (model key : String) (bs : Nat)
    (hbs : 0 < bs) (texts : List String) :
    (∀ b ∈ embed_requests ⟨model, key, bs⟩ texts, b.length ≤ bs) ∧
    (embed_requests ⟨model, key, bs⟩ texts).flatten = texts ∧
    (embed_requests ⟨model, key, bs⟩ texts).length =
      (texts.length + bs - 1) / bs ∧
    (texts.length = 50 → bs = 32 →
      (embed_requests ⟨model, key, bs⟩ texts).length = 2) := by
  refine ⟨chunkList_batch_le bs hbs texts, chunkList_flatten bs texts,
    chunkList_length bs hbs texts, ?_⟩
  intro h50 h32
  subst h32
  show (chunkList 32 texts).length = 2
  rw [chunkList_length 32 (by decide) texts, h50]

/-- C2 witness: 50 concrete texts with batch size 32 yield exactly 2
requests whose concatenation is the input, through the claim theorem. -/
theorem embed_documents_batching_witness :
    (embed_requests ⟨"BAAI/bge-m3", "k", 32⟩
      (List.replicate 50 "x")).flatten = List.replicate 50 "x" ∧
    (embed_requests ⟨"BAAI/bge-m3", "k", 32⟩
      (List.replicate 50 "x")).length = 2 := by
  have h := embed_documents_batching "BAAI/bge-m3" "k" 32 (by decide)
    (List.replicate 50 "x")
  exact ⟨h.2.1, h.2.2.2 (by simp) rfl⟩

/-- C4 witness: a table entry evaluated through the claim theorem. -/
theorem siliconflow_dimension_table_witness :
    SiliconflowEmbedding.dimension ⟨"BAAI/bge-m3", "k", 32⟩ =
      Except.ok 1024 ∧
    0 < (("BAAI/bge-m3", 1024) : String × Nat).snd := by
  have h := siliconflow_dimension_table "k" 32
  exact ⟨h.1, h.2.2.2 ("BAAI/bge-m3", 1024) (by decide)⟩

/-- C8 witness: a concrete function applied through the claim theorem. -/
theorem lazy_traceable_without_langsmith_witness :
    lazy_traceable false (fun _ f => f) "chain"
      (fun n : Nat => (Except.ok n : Except Nat Nat)) 3 = Except.ok 3 :=
  lazy_traceable_without_langsmith (fun _ f => f) "chain"
    (fun n : Nat => (Except.ok n : Except Nat Nat)) 3

/-- C5: inserting a batch containing any record whose embedding length
differs from the collection's dimension fails with `SchemaMismatchError`
and writes nothing: the returned state is the input state, so the stored
row count is unchanged (all-or-nothing, no truncation or padding). -/
theorem insert_data_dimension_mismatch (st : MilvusState) (name : String)
    (c : Collection) (chunks : List RetrievalResult)
    (hc : lookupCollection st name = some c)
    (hbad : ∃ r ∈ chunks, r.embedding.length ≠ c.dimension) :
    insert_data st name chunks = (st, some ⟨name⟩) ∧
    row_count (insert_data st name chunks).fst name = row_count st name := by
  have hall : chunks.all (fun r => r.embedding.length == c.dimension) =
      false := by
    rw [List.all_eq_false]
    obtain ⟨r, hr, hne⟩ := hbad
    exact ⟨r, hr, by simpa using hne⟩
  have hmain : insert_data st name chunks = (st, some ⟨name⟩) := by
    unfold insert_data
    rw [hc]
    simp only [hall, Bool.false_eq_true, if_false]
  exact ⟨hmain, by rw [hmain]⟩

/-- C5 witness: a one-row collection of dimension 2 rejects a record of
dimension 3 and keeps its row count, through the claim theorem. -/
theorem insert_data_dimension_mismatch_witness :
    insert_data
        ⟨[("col", ⟨2, "", false, [⟨[1, 2], "t", "r", [], 0⟩]⟩)]⟩ "col"
        [⟨[1, 2, 3], "u", "r", [], 0⟩] =
      (⟨[("col", ⟨2, "", false, [⟨[1, 2], "t", "r", [], 0⟩]⟩)]⟩,
        some ⟨"col"⟩) ∧
    row_count
      (insert_data
        ⟨[("col", ⟨2, "", false, [⟨[1, 2], "t", "r", [], 0⟩]⟩)]⟩ "col"
        [⟨[1, 2, 3], "u", "r", [], 0⟩]).fst "col" =
      row_count
        ⟨[("col", ⟨2, "", false, [⟨[1, 2], "t", "r", [], 0⟩]⟩)]⟩ "col" :=
  insert_data_dimension_mismatch
    ⟨[("col", ⟨2, "", false, [⟨[1, 2], "t", "r", [], 0⟩]⟩)]⟩ "col"
    ⟨2, "", false, [⟨[1, 2], "t", "r", [], 0⟩]⟩
    [⟨[1, 2, 3], "u", "r", [], 0⟩] (by decide)
    ⟨⟨[1, 2, 3], "u", "r", [], 0⟩, by decide, by decide⟩

/-- C6: on a collection holding the stored rows, `search_data` with
`top_k = k ≤ N` returns exactly `k` results, ordered best-first with
non-worsening (non-decreasing distance) score, each carrying the stored
embedding, text, reference and metadata unmodified, with the score the
backend metric reports for it. -/
theorem search_data_top_k (score_fn : List Rat → List Rat → Rat)
    (st : MilvusState) (name : String) (c : Collection) (vector : List Rat)
    (k : Nat) (hc : lookupCollection st name = some c)
    (hk : k ≤ c.rows.length) :
    ∃ res, search_data score_fn st name vector k = Except.ok res ∧
      res.length = k ∧
      List.Pairwise (fun a b : RetrievalResult => a.score ≤ b.score) res ∧
      ∀ r ∈ res, ∃ orig ∈ c.rows,
        r.embedding = orig.embedding ∧ r.text = orig.text ∧
        r.reference = orig.reference ∧ r.metadata = orig.metadata ∧
        r.score = score_fn vector orig.embedding := by
  unfold search_data
  rw [hc]
  refine ⟨_, rfl, ?_, ?_, ?_⟩
  · rw [List.length_take, List.length_mergeSort, List.length_map]
    omega
  · have hs := @List.sorted_mergeSort RetrievalResult
      (fun a b : RetrievalResult => decide (a.score ≤ b.score))
      (fun a b c hab hbc => decide_eq_true
        (le_trans (of_decide_eq_true hab) (of_decide_eq_true hbc)))
      (fun a b => by
        rcases le_total a.score b.score with h | h <;> simp [h])
      (c.rows.map (fun r => { r with score := score_fn vector r.embedding }))
    have ht := List.Pairwise.sublist (List.take_sublist k _) hs
    exact ht.imp (fun h => of_decide_eq_true h)
  · intro r hr
    have hr1 := List.mem_of_mem_take hr
    have hr2 : r ∈ c.rows.map
        (fun r => { r with score := score_fn vector r.embedding }) :=
      (List.mergeSort_perm _ _).mem_iff.mp hr1
    obtain ⟨orig, ho, rfl⟩ := List.mem_map.mp hr2
    exact ⟨orig, ho, rfl, rfl, rfl, rfl, rfl⟩

/-- C6 witness: two stored rows, a metric that measures the first
coordinate gap, and `top_k = 2`, through the claim theorem. -/
theorem search_data_top_k_witness :
    ∃ res, search_data (fun _ _ => 0)
        ⟨[("col", ⟨1, "", false,
          [⟨[1], "t1", "r1", [("a", "1")], 0⟩,
           ⟨[2], "t2", "r2", [("a", "2")], 0⟩]⟩)]⟩
        "col" [1] 2 = Except.ok res ∧
      res.length = 2 ∧
      List.Pairwise (fun a b : RetrievalResult => a.score ≤ b.score) res ∧
      ∀ r ∈ res, ∃ orig ∈
        [(⟨[1], "t1", "r1", [("a", "1")], 0⟩ : RetrievalResult),
         ⟨[2], "t2", "r2", [("a", "2")], 0⟩],
        r.embedding = orig.embedding ∧ r.text = orig.text ∧
        r.reference = orig.reference ∧ r.metadata = orig.metadata ∧
        r.score = (fun (_ _ : List Rat) => (0 : Rat)) [1] orig.embedding :=
  search_data_top_k (fun _ _ => 0)
    ⟨[("col", ⟨1, "", false,
      [⟨[1], "t1", "r1", [("a", "1")], 0⟩,
       ⟨[2], "t2", "r2", [("a", "2")], 0⟩]⟩)]⟩
    "col"
    ⟨1, "", false,
      [⟨[1], "t1", "r1", [("a", "1")], 0⟩,
       ⟨[2], "t2", "r2", [("a", "2")], 0⟩]⟩
    [1] 2 (by decide) (by decide)

/-- C7: `clear_db` drives the collection to the absent state — a subsequent
`list_collections` no longer lists it and a lookup misses — and `clear_db`
on an absent collection is an idempotent no-op that does not raise
(`clear_db` is a total function). -/
theorem clear_db_drops_collection (st : MilvusState) (name : String) :
    (¬ ∃ d, (name, d) ∈ list_collections (clear_db st name)) ∧
    lookupCollection (clear_db st name) name = none ∧
    (lookupCollection st name = none → clear_db st name = st) := by
  refine ⟨?_, ?_, ?_⟩
  · rintro ⟨d, hd⟩
    unfold list_collections clear_db at hd
    obtain ⟨p, hp, hpd⟩ := List.mem_map.mp hd
    have hpf := (List.mem_filter.mp hp).2
    have : p.fst = name := congrArg Prod.fst hpd
    simp [this] at hpf
  · unfold lookupCollection clear_db
    rw [Option.map_eq_none']
    rw [List.find?_eq_none]
    intro p hp
    have hpf := (List.mem_filter.mp hp).2
    simpa using hpf
  · intro h
    unfold lookupCollection at h
    rw [Option.map_eq_none', List.find?_eq_none] at h
    cases st with
    | mk colls =>
      unfold clear_db
      refine congrArg MilvusState.mk ?_
      rw [List.filter_eq_self]
      intro p hp
      have := h p hp
      simpa using this

/-- C7 witness: dropping one of two collections hides it from
`list_collections`, and dropping an absent collection is a no-op, through
the claim theorem. -/
theorem clear_db_drops_collection_witness :
    (¬ ∃ d, ("a", d) ∈ list_collections (clear_db
      ⟨[("a", ⟨1, "da", false, []⟩), ("b", ⟨2, "db", false, []⟩)]⟩ "a")) ∧
    clear_db ⟨[("b", ⟨2, "db", false, []⟩)]⟩ "a" =
      ⟨[("b", ⟨2, "db", false, []⟩)]⟩ := by
  refine ⟨(clear_db_drops_collection
    ⟨[("a", ⟨1, "da", false, []⟩), ("b", ⟨2, "db", false, []⟩)]⟩ "a").1, ?_⟩
  exact (clear_db_drops_collection ⟨[("b", ⟨2, "db", false, []⟩)]⟩ "a").2.2
    (by decide)

end DeepSearcher
